import Mathlib

/-!
Verification development for the quiz-party real-time client subsystem
(shared WebSocket hook, message dispatcher, fetch cache, REST client,
session storage).  Each TypeScript function named in a claim is embedded
shallowly as a Lean definition; theorems about those definitions settle
the claims.
-/

namespace QuizParty

/-- Shallow model of the JavaScript values produced by JSON.parse. -/
inductive Json where
  | null : Json
  | bool (b : Bool) : Json
  | num (n : Int) : Json
  | str (s : String) : Json
  | arr (elems : List Json) : Json
  | obj (fields : List (String × Json)) : Json

/-- Result of JavaScript property access on such a value:
property access on null throws a TypeError, on any other value it
yields the property value or undefined (modelled as Option). -/
def jsGetProp : Json → String → Except Unit (Option Json)
  | .null, _ => .error ()
  | .obj fields, key => .ok ((fields.find? (fun p => p.1 == key)).map Prod.snd)
  | _, _ => .ok none

/-- The JavaScript typeof operator restricted to JSON.parse results:
objects, arrays and null all report "object". -/
def jsTypeof : Json → String
  | .null => "object"
  | .bool _ => "boolean"
  | .num _ => "number"
  | .str _ => "string"
  | .arr _ => "object"
  | .obj _ => "object"

/-- JavaScript truthiness of a possibly-undefined value (undefined,
null, false, 0 and the empty string are falsy). -/
def jsTruthy : Option Json → Bool
  | none => false
  | some .null => false
  | some (.bool b) => b
  | some (.num n) => n != 0
  | some (.str s) => s != ""
  | some (.arr _) => true
  | some (.obj _) => true

/-- String coercion (as in new Error(x) or template interpolation) for
the primitive cases needed here. -/
def jsToString : Json → String
  | .null => "null"
  | .bool true => "true"
  | .bool false => "false"
  | .num n => toString n
  | .str s => s
  | .arr _ => ""
  | .obj _ => "[object Object]"

/-- Escape one character for JSON.stringify output. -/
def jsonEscapeChar (c : Char) : String :=
  if c = '"' then "\\\"" else if c = '\\' then "\\\\" else String.singleton c

/-- Escape a string for JSON.stringify output (quote and backslash). -/
def jsonEscape (s : String) : String :=
  String.join (s.data.map jsonEscapeChar)

/-- A JSON string literal as JSON.stringify prints it. -/
def jsonQuote (s : String) : String :=
  "\"" ++ jsonEscape s ++ "\""

mutual

/-- JSON.stringify on the modelled values. -/
def Json.stringify : Json → String
  | .null => "null"
  | .bool true => "true"
  | .bool false => "false"
  | .num n => toString n
  | .str s => jsonQuote s
  | .arr elems => "[" ++ stringifyElems elems ++ "]"
  | .obj fields => "\x7b" ++ stringifyFields fields ++ "\x7d"

/-- Comma-separated serialization of array elements. -/
def stringifyElems : List Json → String
  | [] => ""
  | [x] => Json.stringify x
  | x :: xs => Json.stringify x ++ "," ++ stringifyElems xs

/-- Comma-separated serialization of object fields. -/
def stringifyFields : List (String × Json) → String
  | [] => ""
  | [(k, v)] => jsonQuote k ++ ":" ++ Json.stringify v
  | (k, v) :: fs => jsonQuote k ++ ":" ++ Json.stringify v ++ "," ++ stringifyFields fs

end

/-! ## Connection manager (useWebSocket.ts) -/

/-- Source constant INITIAL_RECONNECT_DELAY_MS. -/
def INITIAL_RECONNECT_DELAY_MS : Nat := 1000

/-- Source constant MAX_RECONNECT_DELAY_MS. -/
def MAX_RECONNECT_DELAY_MS : Nat := 15000

/-- Source constant MAX_RECONNECT_ATTEMPTS. -/
def MAX_RECONNECT_ATTEMPTS : Nat := 10

/-- Connection status as held in the connectionStatus state variable. -/
inductive ConnStatus where
  | connecting
  | connected
  | reconnecting
  | disconnected
deriving DecidableEq, Repr

/-- Mutable state of one hook instance: the refs wsRef, reconnectTimer,
reconnectAttempts, messageQueue plus the isConnected / connectionStatus
state.  Sockets are identified by numeric ids; pendingClose holds close
events emitted by sockets that were closed but whose onclose handler has
not yet run (the handler stays attached to the socket object). -/
structure ConnState where
  wsRef : Option Nat
  timer : Option Nat
  attempts : Nat
  isConnected : Bool
  status : ConnStatus
  queue : List Json
  pendingClose : List Nat

/-- Observable side effects of the onclose handler. -/
inductive ConnEffect where
  | schedReconnect (delayMs : Nat)
  | exhaustedCallback
deriving DecidableEq, Repr, BEq

/-- Body of ws.onclose: set isConnected false, null wsRef; if enabled
and attempts below the maximum, compute the backoff delay, bump the
counter and schedule a reconnect; otherwise go to disconnected and, if
the counter has reached the maximum, invoke onReconnectExhausted. -/
def oncloseHandler (enabled : Bool) (st : ConnState) : ConnState × Option ConnEffect :=
  let st := { st with isConnected := false, wsRef := none }
  if enabled && st.attempts < MAX_RECONNECT_ATTEMPTS then
    let delay := min (INITIAL_RECONNECT_DELAY_MS * 2 ^ st.attempts) MAX_RECONNECT_DELAY_MS
    ({ st with attempts := st.attempts + 1, status := .reconnecting, timer := some delay },
     some (.schedReconnect delay))
  else
    ({ st with status := .disconnected },
     if MAX_RECONNECT_ATTEMPTS ≤ st.attempts then some .exhaustedCallback else none)

/-- The scheduled reconnect timer fires and connect() runs: the timer is
consumed, a fresh socket is created and owned, and the status becomes
reconnecting or connecting depending on the attempt counter. -/
def connectStep (sock : Nat) (st : ConnState) : ConnState :=
  { st with timer := none, wsRef := some sock,
            status := if st.attempts > 0 then .reconnecting else .connecting }

/-- State of a hook instance right after the first connect. -/
def initialConn : ConnState :=
  { wsRef := some 0, timer := none, attempts := 0,
    isConnected := false, status := .connecting, queue := [], pendingClose := [] }

/-- A run in which every connection attempt fails: each close event is
handled by oncloseHandler; while a reconnect is scheduled, the timer
fires, connect creates a fresh socket and that socket also closes.
Returns the list of observable effects.  Fuel bounds the recursion; the
run stops by itself once no reconnect is scheduled. -/
def failRun : Nat → ConnState → List ConnEffect
  | 0, _ => []
  | fuel + 1, st =>
    match oncloseHandler true st with
    | (st', some (.schedReconnect d)) =>
        .schedReconnect d :: failRun fuel (connectStep (st'.attempts) st')
    | (_, some .exhaustedCallback) => [.exhaustedCallback]
    | (_, none) => []

/-- Claim C1: for attempt counters 0..9 the scheduled reconnect delay is
min(1000·2^n, 15000), giving 1000, 2000, 4000, 8000 and then 15000 six
times; in a run where every attempt fails, exactly those ten reconnects
are scheduled, then the exhaustion callback fires exactly once and no
further reconnect is ever scheduled (the run ends). -/
theorem reconnect_backoff_and_exhaustion :
    (List.range MAX_RECONNECT_ATTEMPTS).map
        (fun n => min (INITIAL_RECONNECT_DELAY_MS * 2 ^ n) MAX_RECONNECT_DELAY_MS)
      = [1000, 2000, 4000, 8000, 15000, 15000, 15000, 15000, 15000, 15000]
    ∧ (∀ fuel, 11 ≤ fuel → failRun fuel initialConn
        = [.schedReconnect 1000, .schedReconnect 2000, .schedReconnect 4000,
           .schedReconnect 8000, .schedReconnect 15000, .schedReconnect 15000,
           .schedReconnect 15000, .schedReconnect 15000, .schedReconnect 15000,
           .schedReconnect 15000, .exhaustedCallback])
    ∧ (failRun 20 initialConn).count .exhaustedCallback = 1 := by
  refine ⟨by decide, ?_, by decide⟩
  intro fuel h
  obtain ⟨n, rfl⟩ : ∃ n, fuel = n + 11 := ⟨fuel - 11, by omega⟩
  rfl

/-- Witness for the quantified part of C1 at fuel 11. -/
theorem reconnect_backoff_and_exhaustion_witness :
    failRun 11 initialConn
      = [.schedReconnect 1000, .schedReconnect 2000, .schedReconnect 4000,
         .schedReconnect 8000, .schedReconnect 15000, .schedReconnect 15000,
         .schedReconnect 15000, .schedReconnect 15000, .schedReconnect 15000,
         .schedReconnect 15000, .exhaustedCallback] :=
  reconnect_backoff_and_exhaustion.2.1 11 (by decide)

/-! ## Inbound frame handling (ws.onmessage, both hook variants) -/

/-- Outcome of the onmessage handler on one inbound frame. -/
inductive MsgEffect where
  | ignored
  | pong
  | handled (data : Json)

/-- JavaScript strict comparison of a possibly-undefined property value
against the string literal ping, as in the source test data.type equals
the string ping. -/
def isPingTag : Option Json → Bool
  | some (.str s) => s == "ping"
  | _ => false

/-- Body of ws.onmessage in packages/shared/src/hooks/useWebSocket.ts:
JSON.parse the frame (parse failure modelled as none, caught by the
surrounding catch); then read data.type inside the same try block (a
TypeError on null is also caught); reply pong to a ping; otherwise call
the application onMessage callback with the parsed value. -/
def onmessagePlain (parsed : Option Json) : MsgEffect :=
  match parsed with
  | none => .ignored
  | some data =>
    match jsGetProp data "type" with
    | .error _ => .ignored
    | .ok t => if isPingTag t then .pong else .handled data

/-- Whether data.type is a string, once data is known non-null. -/
def typeFieldString (data : Json) : Option String :=
  match jsGetProp data "type" with
  | .ok (some (.str s)) => some s
  | _ => none

/-- Body of ws.onmessage in the typed hook variant: after parsing,
validate that the value is an object (typeof), non-null, with a string
type property, and discard otherwise; then the ping reply and the
onMessage call as in the plain variant. -/
def onmessageTyped (parsed : Option Json) : MsgEffect :=
  match parsed with
  | none => .ignored
  | some data =>
    if jsTypeof data != "object" || (match data with | .null => true | _ => false)
        || (typeFieldString data).isNone then
      .ignored
    else if typeFieldString data == some "ping" then .pong
    else .handled data

/-- Claim C2 counterexample: in the plain hook a frame that parses to a
JSON array (a malformed frame: not an object with a string type field)
is not discarded — the application onMessage callback is invoked with
the array. -/
theorem malformed_frame_invokes_callback :
    onmessagePlain (some (Json.arr [Json.num 1, Json.num 2]))
      = MsgEffect.handled (Json.arr [Json.num 1, Json.num 2])
    ∧ onmessagePlain (some (Json.obj [])) = MsgEffect.handled (Json.obj []) :=
  ⟨rfl, rfl⟩

/-- Claim C2 (amended): the plain hook discards a frame exactly when
JSON.parse fails or the parsed value is null (whose property access
throws inside the try block); every other malformed value is passed to
onMessage unless its type field is the string ping.  The typed hook
variant discards every frame whose parsed value is not a non-null
object with a string type field, so there the claim holds as stated. -/
theorem malformed_frame_handling :
    (∀ parsed : Option Json,
      onmessagePlain parsed = MsgEffect.ignored ↔
        (parsed = none ∨ parsed = some Json.null))
    ∧ (∀ parsed : Option Json,
      onmessageTyped parsed = MsgEffect.ignored ↔
        (∀ data, parsed = some data → typeFieldString data = none)) := by
  constructor
  · intro parsed
    match parsed with
    | none => simp [onmessagePlain]
    | some .null => simp [onmessagePlain, jsGetProp]
    | some (.bool b) => simp [onmessagePlain, jsGetProp, isPingTag]
    | some (.num n) => simp [onmessagePlain, jsGetProp, isPingTag]
    | some (.str s) => simp [onmessagePlain, jsGetProp, isPingTag]
    | some (.arr es) => simp [onmessagePlain, jsGetProp, isPingTag]
    | some (.obj fs) =>
      constructor
      · intro hc
        exfalso
        revert hc
        simp only [onmessagePlain, jsGetProp]
        split <;> intro hc <;> exact MsgEffect.noConfusion hc
      · rintro (hc | hc)
        · exact Option.noConfusion hc
        · simp at hc
  · intro parsed
    match parsed with
    | none => simp [onmessageTyped]
    | some data =>
      have hiff : onmessageTyped (some data) = MsgEffect.ignored ↔
          typeFieldString data = none := by
        match data with
        | .null => simp [onmessageTyped, jsTypeof, typeFieldString, jsGetProp]
        | .bool b => simp [onmessageTyped, jsTypeof, typeFieldString, jsGetProp]
        | .num n => simp [onmessageTyped, jsTypeof, typeFieldString, jsGetProp]
        | .str s => simp [onmessageTyped, jsTypeof, typeFieldString, jsGetProp]
        | .arr es => simp [onmessageTyped, jsTypeof, typeFieldString, jsGetProp]
        | .obj fs =>
          rcases h : typeFieldString (.obj fs) with _ | s
          · simp [onmessageTyped, jsTypeof, h]
          · by_cases hp : s = "ping" <;> simp [onmessageTyped, jsTypeof, h, hp]
      rw [hiff]
      constructor
      · intro h d hd
        obtain rfl : data = d := by injection hd
        exact h
      · intro h
        exact h data rfl

/-- Witness for C2's amended theorem at concrete frames: a JSON array
is discarded by the typed variant, and a null frame by the plain one. -/
theorem malformed_frame_handling_witness :
    onmessageTyped (some (Json.arr [])) = MsgEffect.ignored
    ∧ onmessagePlain (some Json.null) = MsgEffect.ignored :=
  ⟨(malformed_frame_handling.2 (some (Json.arr []))).mpr
      (fun d hd => by injection hd with h; exact h ▸ rfl),
   (malformed_frame_handling.1 (some Json.null)).mpr (Or.inr rfl)⟩

/-! ## Teardown (useEffect cleanup) and late close events -/

/-- The effect cleanup: clearTimeout on any pending reconnect timer;
then, if wsRef is set, call close() on that socket (the close event it
emits is queued, since the onclose handler stays attached to the socket
object) and only afterwards set wsRef to null. -/
def cleanupEffect (st : ConnState) : ConnState :=
  let st1 := { st with timer := none }
  match st1.wsRef with
  | some sock => { st1 with pendingClose := st1.pendingClose ++ [sock], wsRef := none }
  | none => st1

/-- Deliver the oldest queued close event: the socket's attached
onclose handler runs on the hook state, regardless of whether wsRef
still points at that socket. -/
def deliverClose (enabled : Bool) (st : ConnState) : ConnState × Option ConnEffect :=
  match st.pendingClose with
  | _sock :: rest => oncloseHandler enabled { st with pendingClose := rest }
  | [] => (st, none)

/-- A connected hook instance about to be torn down. -/
def connectedConn : ConnState :=
  { wsRef := some 0, timer := none, attempts := 0,
    isConnected := true, status := .connected, queue := [], pendingClose := [] }

/-- Claim C4 counterexample: tearing down a connected instance and then
delivering the close event that close() emits from the torn-down
transport runs the still-attached onclose handler, which schedules a
fresh reconnect (timer set, schedReconnect effect with the base delay)
— so teardown does cause a new reconnect to be scheduled, contrary to
the claim. -/
theorem teardown_schedules_reconnect :
    (deliverClose true (cleanupEffect connectedConn)).1.timer = some 1000
    ∧ (deliverClose true (cleanupEffect connectedConn)).2
        = some (.schedReconnect 1000) :=
  ⟨rfl, rfl⟩

/-- Claim C4 (amended): the cleanup does cancel the pending reconnect
timer and does null the transport reference (after calling close, not
before); but the socket's handlers are not detached and do not consult
wsRef, so the close event from the torn-down transport still runs the
onclose handler, and whenever the hook is enabled with attempts below
the maximum that handler schedules a new reconnect. -/
theorem teardown_cleanup_behavior (st : ConnState)
    (hws : st.wsRef = some 0) (hpc : st.pendingClose = [])
    (hatt : st.attempts < MAX_RECONNECT_ATTEMPTS) :
    (cleanupEffect st).timer = none
    ∧ (cleanupEffect st).wsRef = none
    ∧ (deliverClose true (cleanupEffect st)).2
        = some (.schedReconnect
            (min (INITIAL_RECONNECT_DELAY_MS * 2 ^ st.attempts) MAX_RECONNECT_DELAY_MS)) := by
  refine ⟨?_, ?_, ?_⟩ <;>
    simp [cleanupEffect, hws, hpc, deliverClose, oncloseHandler, hatt]

/-- Witness for C4's amended theorem at the concrete connected state. -/
theorem teardown_cleanup_behavior_witness :
    (cleanupEffect connectedConn).timer = none
    ∧ (cleanupEffect connectedConn).wsRef = none
    ∧ (deliverClose true (cleanupEffect connectedConn)).2
        = some (.schedReconnect
            (min (INITIAL_RECONNECT_DELAY_MS * 2 ^ connectedConn.attempts)
              MAX_RECONNECT_DELAY_MS)) :=
  teardown_cleanup_behavior connectedConn rfl rfl (by decide)

/-! ## Handshake and outbound queue (ws.onopen / send) -/

/-- Connection role. -/
inductive Role where
  | host
  | player
deriving DecidableEq, Repr

/-- The role string written into the init message. -/
def Role.toStr : Role → String
  | .host => "host"
  | .player => "player"

/-- JavaScript truthiness of an optional string prop (undefined and the
empty string are falsy). -/
def truthyStr : Option String → Bool
  | some s => s != ""
  | none => false

/-- The init object built in ws.onopen: start from type and role; for a
host with a truthy token add the token property; for a player with a
truthy playerId add player_id and player_token (the latter may be
undefined, modelled as none). -/
def buildInitMsg (role : Role) (token playerId playerToken : Option String) :
    List (String × Option Json) :=
  let base := [("type", some (Json.str "init")), ("role", some (Json.str role.toStr))]
  match role with
  | .host =>
    if truthyStr token then base ++ [("token", token.map Json.str)] else base
  | .player =>
    if truthyStr playerId then
      base ++ [("player_id", playerId.map Json.str),
               ("player_token", playerToken.map Json.str)]
    else base

/-- JSON.stringify of such an object: properties whose value is
undefined are omitted from the output. -/
def stringifyInit (props : List (String × Option Json)) : String :=
  Json.stringify (Json.obj (props.filterMap (fun p => p.2.map (fun v => (p.1, v)))))

/-- Body of ws.onopen: set connected state, reset the attempt counter,
send the init frame, then flush the queued messages in order and clear
the queue.  Returns the new state and the frames written, in order. -/
def onopenHandler (role : Role) (token playerId playerToken : Option String)
    (st : ConnState) : ConnState × List String :=
  ({ st with isConnected := true, status := .connected, attempts := 0, queue := [] },
   stringifyInit (buildInitMsg role token playerId playerToken)
     :: st.queue.map Json.stringify)

/-- Body of send(data): if the transport is open, serialize and write
immediately; otherwise push onto the message queue.  Returns the new
state and the frames written now. -/
def sendFn (wsOpen : Bool) (st : ConnState) (msg : Json) : ConnState × List String :=
  if wsOpen then (st, [Json.stringify msg])
  else ({ st with queue := st.queue ++ [msg] }, [])

/-- Claim C6: a message passed to send while the transport is not open
is appended at the tail of the outbound queue (FIFO) and nothing is
written; on the next open the queue is flushed in enqueue order right
after the init frame and then cleared, so a second open (with no sends
in between) writes only its init frame — no queued message is ever
delivered twice. -/
theorem queue_flush_fifo_once :
    (∀ st msg, (sendFn false st msg).1.queue = st.queue ++ [msg]
      ∧ (sendFn false st msg).2 = [])
    ∧ (∀ role token playerId playerToken st,
        (onopenHandler role token playerId playerToken st).2
          = stringifyInit (buildInitMsg role token playerId playerToken)
              :: st.queue.map Json.stringify
        ∧ (onopenHandler role token playerId playerToken st).1.queue = [])
    ∧ (∀ role token playerId playerToken st,
        (onopenHandler role token playerId playerToken
            (onopenHandler role token playerId playerToken st).1).2
          = [stringifyInit (buildInitMsg role token playerId playerToken)]) := by
  refine ⟨fun st msg => ⟨rfl, rfl⟩, fun r t p pt st => ⟨rfl, rfl⟩, fun r t p pt st => rfl⟩

/-- Claim C9: on every open the first frame written is the init frame;
for a player connection with player_id p1 and player_token t1 that
frame is exactly the JSON text from the claim, and for a host with a
token the analogous host init frame is produced. -/
theorem init_frame_first_and_exact :
    (∀ role token playerId playerToken st,
      ((onopenHandler role token playerId playerToken st).2).head?
        = some (stringifyInit (buildInitMsg role token playerId playerToken)))
    ∧ stringifyInit (buildInitMsg .player none (some "p1") (some "t1"))
        = "\x7b\"type\":\"init\",\"role\":\"player\",\"player_id\":\"p1\",\"player_token\":\"t1\"\x7d"
    ∧ stringifyInit (buildInitMsg .host (some "tok") none none)
        = "\x7b\"type\":\"init\",\"role\":\"host\",\"token\":\"tok\"\x7d" := by
  refine ⟨fun r t p pt st => rfl, ?_, ?_⟩ <;> decide

/-! ## Message dispatcher (messageHandlers.ts, createMessageDispatcher) -/

/-- The non-ok branch of apiFetch: response.json() is modelled by
bodyJson (none when the body is not valid JSON).  When it is none the
catch runs response.text() — but response.json() has already consumed
the body stream, so text() rejects and its own catch yields the empty
string; text is therefore always falsy there and the wrapped detail is
always the "Request failed" fallback.  The promise is then rejected
with new Error(error.detail or the HTTP-status fallback).  A TypeError
from reading .detail on a JSON null body propagates (modelled as
.error). -/
def handleErrorResponse (status : Nat) (bodyJson : Option Json) :
    Except Unit String :=
  let error : Json :=
    match bodyJson with
    | some j => j
    | none =>
      let text := ""
      Json.obj [("detail",
        Json.str (if text != "" then text
                  else "Request failed with HTTP " ++ toString status))]
  match jsGetProp error "detail" with
  | .error _ => .error ()
  | .ok (some v) =>
    .ok (if jsTruthy (some v) then jsToString v else "HTTP " ++ toString status)
  | .ok none => .ok ("HTTP " ++ toString status)

/-- Modelled from the spec words of C8 for comparison: choose the
detail field of the JSON body if present, else the raw response text,
else a generic HTTP-status fallback, in that preference order. -/
def specPreferredErrorMessage (status : Nat) (bodyText : String) (bodyJson : Option Json) :
    String :=
  match bodyJson with
  | some j =>
    match jsGetProp j "detail" with
    | .ok (some v) => jsToString v
    | _ => if bodyText != "" then bodyText else "HTTP " ++ toString status
  | none => if bodyText != "" then bodyText else "HTTP " ++ toString status

/-- Claim C8 counterexample: a non-2xx response whose body is valid
JSON without a detail field rejects with the generic "HTTP 500", not
with the raw response text as the claimed preference order requires. -/
theorem error_message_skips_raw_text :
    handleErrorResponse 500 (some (Json.obj [("error", Json.str "boom")]))
      = .ok "HTTP 500"
    ∧ specPreferredErrorMessage 500 "\x7b\"error\":\"boom\"\x7d"
        (some (Json.obj [("error", Json.str "boom")]))
      = "\x7b\"error\":\"boom\"\x7d"
    ∧ "HTTP 500" ≠ "\x7b\"error\":\"boom\"\x7d" := by
  refine ⟨rfl, rfl, by decide⟩

/-- Claim C8 (amended): when the body parses as JSON, a truthy string
detail field becomes the message and otherwise the message is the
generic "HTTP status" — the raw response text is never used, because
for an unparsable body response.text() runs after response.json() has
consumed the stream, rejects, and is caught to the empty string, so
every unparsable body (empty or not) rejects with "Request failed with
HTTP status".  The end-to-end join scenario holds: HTTP 400 with a
detail of "Session is full" rejects with exactly that message. -/
theorem error_message_preference (status : Nat) (j : Json) :
    (∀ s, jsGetProp j "detail" = .ok (some (.str s)) → s ≠ "" →
      handleErrorResponse status (some j) = .ok s)
    ∧ (jsGetProp j "detail" = .ok none →
      handleErrorResponse status (some j) = .ok ("HTTP " ++ toString status))
    ∧ (handleErrorResponse status none
        = .ok ("Request failed with HTTP " ++ toString status))
    ∧ (handleErrorResponse 400
        (some (Json.obj [("detail", Json.str "Session is full")]))
        = .ok "Session is full") := by
  refine ⟨?_, ?_, ?_, rfl⟩
  · intro s hd hs
    simp only [handleErrorResponse, hd]
    simp [jsTruthy, jsToString, hs]
  · intro hd
    simp only [handleErrorResponse, hd]
  · have hne : ("Request failed with HTTP " ++ toString status) ≠ "" := by
      intro he
      have hd : ("Request failed with HTTP " ++ toString status).data = [] := by
        rw [he]
      rw [String.data_append] at hd
      exact absurd (List.append_eq_nil.mp hd).1 (by decide)
    simp only [handleErrorResponse, jsGetProp]
    simp [jsTruthy, jsToString, hne]

/-- Witness for C8's amended theorem at concrete responses. -/
theorem error_message_preference_witness :
    handleErrorResponse 400 (some (Json.obj [("detail", Json.str "Session is full")]))
      = .ok "Session is full"
    ∧ handleErrorResponse 502 none = .ok "Request failed with HTTP 502"
    ∧ handleErrorResponse 500 (some (Json.obj [])) = .ok "HTTP 500" :=
  ⟨(error_message_preference 400
      (Json.obj [("detail", Json.str "Session is full")])).1
      "Session is full" rfl (by decide),
   (error_message_preference 502 Json.null).2.2.1,
   (error_message_preference 500 (Json.obj [])).2.1 rfl⟩

/-! ## Player session storage (api.ts playerAPI / secureSession, Join.tsx) -/

/-- The shared PlayerSession type (packages/shared/src/types): it
includes the bearer token. -/
structure PlayerSessionRec where
  playerId : String
  playerToken : String
  displayName : String
  sessionCode : String
  teamId : Option String
  teamName : Option String

/-- A nullable string field as JSON.stringify serializes it. -/
def optStrJson : Option String → Json
  | some s => Json.str s
  | none => Json.null

/-- The object Join.tsx builds from the join response and passes to
playerAPI.storeSession, in literal property order. -/
def playerSessionJson (s : PlayerSessionRec) : Json :=
  Json.obj [("playerId", Json.str s.playerId),
            ("playerToken", Json.str s.playerToken),
            ("displayName", Json.str s.displayName),
            ("sessionCode", Json.str s.sessionCode),
            ("teamId", optStrJson s.teamId),
            ("teamName", optStrJson s.teamName)]

/-- Tab-scoped sessionStorage modelled as a key-value map. -/
def Storage := String → Option String

/-- sessionStorage.setItem. -/
def setItem (st : Storage) (key value : String) : Storage :=
  fun k => if k = key then some value else st k

/-- playerAPI.storeSession: sessionStorage.setItem of the key
quizparty_session to JSON.stringify(session). -/
def storeSession (st : Storage) (s : PlayerSessionRec) : Storage :=
  setItem st "quizparty_session" ((playerSessionJson s).stringify)

/-- The Join page's submit handler after a successful join response:
build the full PlayerSession (token included) and persist it with
playerAPI.storeSession. -/
def handleJoinStore (st : Storage) (player_id player_token display_name
    session_code : String) (team_id team_name : Option String) : Storage :=
  storeSession st
    { playerId := player_id, playerToken := player_token,
      displayName := display_name, sessionCode := session_code,
      teamId := team_id, teamName := team_name }

/-- The metadata object storeSecureSession persists: only the five
non-sensitive fields, no token. -/
def metadataJson (s : PlayerSessionRec) : Json :=
  Json.obj [("playerId", Json.str s.playerId),
            ("displayName", Json.str s.displayName),
            ("sessionCode", Json.str s.sessionCode),
            ("teamId", optStrJson s.teamId),
            ("teamName", optStrJson s.teamName)]

/-- storeSecureSession's only write to persisted storage: the metadata
under quizparty_session_meta (the full session with the token stays in
the in-memory variable only). -/
def storeSecureSession (st : Storage) (s : PlayerSessionRec) : Storage :=
  setItem st "quizparty_session_meta" ((metadataJson s).stringify)

/-- Whether pat occurs at the head of s. -/
def leadsWith : List Char → List Char → Bool
  | [], _ => true
  | _ :: _, [] => false
  | c :: cs, d :: ds => c == d && leadsWith cs ds

/-- Whether pat occurs anywhere in s. -/
def hasSubAux (pat : List Char) : List Char → Bool
  | [] => leadsWith pat []
  | c :: cs => leadsWith pat (c :: cs) || hasSubAux pat cs

/-- True when the pattern occurs in s as a substring. -/
def containsSub (s pat : String) : Bool :=
  hasSubAux pat.data s.data

/-- Empty sessionStorage. -/
def emptyStorage : Storage := fun _ => none

/-- Claim C3 counterexample: after the student client's join flow with
a player token of secret-token, persisted sessionStorage holds, under
the key quizparty_session, a value that contains the bearer token (and
whose serialized object carries a playerToken field) — so the token is
written to persisted storage. -/
theorem join_flow_persists_token :
    (handleJoinStore emptyStorage "player-123" "secret-token" "TestPlayer" "ABC123"
        none none) "quizparty_session"
      = some "\x7b\"playerId\":\"player-123\",\"playerToken\":\"secret-token\",\"displayName\":\"TestPlayer\",\"sessionCode\":\"ABC123\",\"teamId\":null,\"teamName\":null\x7d"
    ∧ containsSub
        "\x7b\"playerId\":\"player-123\",\"playerToken\":\"secret-token\",\"displayName\":\"TestPlayer\",\"sessionCode\":\"ABC123\",\"teamId\":null,\"teamName\":null\x7d"
        "secret-token" = true := by
  exact ⟨rfl, by decide⟩

/-- Claim C3 (amended): the secure session manager persists only the
five metadata fields — the object it writes under
quizparty_session_meta has exactly the keys playerId, displayName,
sessionCode, teamId, teamName and no playerToken field — while the
join flow used by the student client persists the full session via
playerAPI.storeSession, whose serialized object does carry the
playerToken field with the bearer token as its value. -/
theorem secure_store_omits_token :
    (∀ s : PlayerSessionRec,
      (match metadataJson s with
        | .obj fields => fields.map Prod.fst
        | _ => []) = ["playerId", "displayName", "sessionCode", "teamId", "teamName"])
    ∧ (∀ st s, storeSecureSession st s "quizparty_session_meta"
        = some ((metadataJson s).stringify))
    ∧ (∀ st s, storeSecureSession st s "quizparty_session" = st "quizparty_session")
    ∧ (∀ s : PlayerSessionRec,
      ("playerToken", Json.str s.playerToken) ∈
        (match playerSessionJson s with
          | .obj fields => fields
          | _ => [])) := by
  exact ⟨fun s => rfl, fun st s => rfl, fun st s => rfl,
    fun s => List.mem_cons_of_mem _ (List.mem_cons_self _ _)⟩

/-! ## Fetch cache (useFetchData.ts) -/

/-- One record of the module-level resultCache: data plus the timestamp
it was stored at (fetched values abstracted to naturals). -/
structure CacheEntry where
  data : Nat
  timestamp : Nat

/-- The module-level maps: inFlightRequests (key to the pending
promise, identified by a numeric id) and resultCache. -/
structure FetchGlobals where
  inFlightRequests : String → Option Nat
  resultCache : String → Option CacheEntry

/-- Per-hook component state: data, loading, error. -/
structure HookState where
  data : Option Nat
  loading : Bool
  error : Option String

/-- What one call of refetch decided to do. -/
inductive RefetchAction where
  | servedFromCache (v : Nat)
  | awaitedInFlight (pid : Nat)
  | invoked (pid : Nat)

/-- The guard of refetch's first block: the cached value to serve, when
a cacheKey is given, the TTL is positive, an entry exists and Date.now
minus its timestamp is below the TTL. -/
def cacheHit (cacheKey : Option String) (cacheTTL now : Nat) (g : FetchGlobals) :
    Option Nat :=
  match cacheKey with
  | some k =>
    if 0 < cacheTTL then
      match g.resultCache k with
      | some c =>
        if (now : Int) - (c.timestamp : Int) < (cacheTTL : Int) then some c.data else none
      | none => none
    else none
  | none => none

/-- The guard of refetch's second block: the in-flight promise
registered for the cacheKey, when one is given. -/
def inflightFor (cacheKey : Option String) (g : FetchGlobals) : Option Nat :=
  match cacheKey with
  | some k => g.inFlightRequests k
  | none => none

/-- The synchronous head of refetch, up to the point the operation is
invoked or not: check the TTL cache (only when a cacheKey is given and
cacheTTL is positive); else join an in-flight request registered for
the key; else set loading, clear the error, invoke fetchFn and register
the fresh promise under the key.  now is Date.now(); freshPid names the
promise a new invocation would create. -/
def refetchStart (cacheKey : Option String) (cacheTTL : Nat) (now : Nat) (freshPid : Nat)
    (g : FetchGlobals) (h : HookState) : FetchGlobals × HookState × RefetchAction :=
  match cacheHit cacheKey cacheTTL now g with
  | some v => (g, { h with data := some v, loading := false }, .servedFromCache v)
  | none =>
    match inflightFor cacheKey g with
    | some pid => (g, h, .awaitedInFlight pid)
    | none =>
      let h1 := { h with loading := true, error := none }
      let g1 :=
        match cacheKey with
        | some k =>
          { g with inFlightRequests :=
              fun k' => if k' = k then some freshPid else g.inFlightRequests k' }
        | none => g
      (g1, h1, .invoked freshPid)

/-- Settlement of the awaited-in-flight branch: the shared promise
resolves (setData) or rejects (setError with the message); finally
setLoading(false).  The error state is untouched on success. -/
def awaitInFlightSettle (outcome : Except String Nat) (h : HookState) : HookState :=
  match outcome with
  | .ok v => { h with data := some v, loading := false }
  | .error m => { h with error := some m, loading := false }

/-- Settlement of an own invocation: on success setData and, when a key
is given and the TTL is positive, store the result with its timestamp
into resultCache; on rejection setError; finally delete the in-flight
registration for the key (whatever the outcome) and setLoading(false). -/
def invokeSettle (cacheKey : Option String) (cacheTTL : Nat) (settledAt : Nat)
    (outcome : Except String Nat) (g : FetchGlobals) (h : HookState) :
    FetchGlobals × HookState :=
  let step :=
    match outcome with
    | .ok v =>
      let g1 :=
        match cacheKey with
        | some k =>
          if 0 < cacheTTL then
            { g with resultCache :=
                fun k' => if k' = k then some ⟨v, settledAt⟩ else g.resultCache k' }
          else g
        | none => g
      (g1, { h with data := some v })
    | .error m => (g, { h with error := some m })
  let g2 :=
    match cacheKey with
    | some k =>
      { step.1 with inFlightRequests :=
          fun k' => if k' = k then none else step.1.inFlightRequests k' }
    | none => step.1
  (g2, { step.2 with loading := false })

/-- Claim C5: with a cache key k, (i) if a request is registered
in-flight for k and the cache does not serve, refetch joins exactly
that promise; (ii) refetch invokes the operation only when nothing is
in flight for k (so at most one request per key is in flight), and on
invocation registers the new promise under k; (iii) a cached result is
served, without invoking the operation, exactly when the TTL is
positive and now minus storedAt is below it; (iv) settling an
invocation removes the in-flight registration whatever the outcome; (v)
after the TTL has elapsed, a call with nothing in flight invokes the
operation again. -/
theorem fetch_dedup_and_ttl (k : String) (cacheTTL now freshPid : Nat)
    (g : FetchGlobals) (h : HookState) :
    (∀ pid, g.inFlightRequests k = some pid →
      (∀ v, (refetchStart (some k) cacheTTL now freshPid g h).2.2 ≠ .servedFromCache v) →
      (refetchStart (some k) cacheTTL now freshPid g h).2.2 = .awaitedInFlight pid)
    ∧ (∀ pid, (refetchStart (some k) cacheTTL now freshPid g h).2.2 = .invoked pid →
      pid = freshPid ∧ g.inFlightRequests k = none
      ∧ (refetchStart (some k) cacheTTL now freshPid g h).1.inFlightRequests k
          = some freshPid)
    ∧ ((∃ v, (refetchStart (some k) cacheTTL now freshPid g h).2.2 = .servedFromCache v)
        ↔ (0 < cacheTTL ∧ ∃ c, g.resultCache k = some c
            ∧ (now : Int) - (c.timestamp : Int) < (cacheTTL : Int)))
    ∧ (∀ settledAt outcome,
      (invokeSettle (some k) cacheTTL settledAt outcome g h).1.inFlightRequests k = none)
    ∧ (∀ c, g.resultCache k = some c → (cacheTTL : Int) ≤ (now : Int) - (c.timestamp : Int) →
      g.inFlightRequests k = none →
      (refetchStart (some k) cacheTTL now freshPid g h).2.2 = .invoked freshPid) := by
  refine ⟨?_, ?_, ?_, ?_, ?_⟩
  · intro pid hin hnotc
    rcases hc : cacheHit (some k) cacheTTL now g with _ | v
    · simp only [refetchStart, hc, inflightFor, hin]
    · exact absurd (show (refetchStart (some k) cacheTTL now freshPid g h).2.2
        = .servedFromCache v by simp only [refetchStart, hc]) (hnotc v)
  · intro pid hinv
    rcases hc : cacheHit (some k) cacheTTL now g with _ | v
    · rcases hf : g.inFlightRequests k with _ | p
      · have hred : (refetchStart (some k) cacheTTL now freshPid g h).2.2
            = .invoked freshPid := by
          simp only [refetchStart, hc, inflightFor, hf]
        have hreg : (refetchStart (some k) cacheTTL now freshPid g h).1.inFlightRequests k
            = some freshPid := by
          simp only [refetchStart, hc, inflightFor, hf]
          simp
        rw [hred] at hinv
        cases hinv
        exact ⟨rfl, by simp [hf], hreg⟩
      · simp only [refetchStart, hc, inflightFor, hf] at hinv
        cases hinv
    · simp only [refetchStart, hc] at hinv
      cases hinv
  · constructor
    · rintro ⟨v, hv⟩
      rcases hc : cacheHit (some k) cacheTTL now g with _ | w
      · rcases hf : g.inFlightRequests k with _ | p <;>
          simp only [refetchStart, hc, inflightFor, hf] at hv <;> cases hv
      · simp only [cacheHit] at hc
        by_cases ht : 0 < cacheTTL
        · rw [if_pos ht] at hc
          rcases hr : g.resultCache k with _ | c
          · simp only [hr] at hc
            cases hc
          · simp only [hr] at hc
            by_cases hlt : (now : Int) - (c.timestamp : Int) < (cacheTTL : Int)
            · exact ⟨ht, c, rfl, hlt⟩
            · rw [if_neg hlt] at hc
              cases hc
        · rw [if_neg ht] at hc; cases hc
    · rintro ⟨ht, c, hr, hlt⟩
      refine ⟨c.data, ?_⟩
      have hc : cacheHit (some k) cacheTTL now g = some c.data := by
        simp only [cacheHit, if_pos ht, hr, if_pos hlt]
      simp only [refetchStart, hc]
  · intro settledAt outcome
    rcases outcome with m | v <;> simp [invokeSettle]
  · intro c hr hge hf
    have hnotlt : ¬ ((now : Int) - (c.timestamp : Int) < (cacheTTL : Int)) := by omega
    have hc : cacheHit (some k) cacheTTL now g = none := by
      by_cases ht : 0 < cacheTTL
      · simp only [cacheHit, if_pos ht, hr, if_neg hnotlt]
      · simp only [cacheHit, if_neg ht]
    simp only [refetchStart, hc, inflightFor, hf]

/-- Witness for C5 at concrete states: a second caller with an
in-flight request for the key joins promise 3; settling removes the
registration; a fresh expired-cache call invokes anew. -/
theorem fetch_dedup_and_ttl_witness :
    (refetchStart (some "sessions") 5000 6000 7
        { inFlightRequests := fun k => if k = "sessions" then some 3 else none,
          resultCache := fun _ => none }
        { data := none, loading := true, error := none }).2.2
      = .awaitedInFlight 3
    ∧ (invokeSettle (some "sessions") 5000 6000 (.error "boom")
        { inFlightRequests := fun k => if k = "sessions" then some 3 else none,
          resultCache := fun _ => none }
        { data := none, loading := true, error := none }).1.inFlightRequests "sessions"
      = none
    ∧ (refetchStart (some "sessions") 5000 6000 7
        { inFlightRequests := fun _ => none,
          resultCache := fun k => if k = "sessions" then some ⟨42, 500⟩ else none }
        { data := none, loading := false, error := none }).2.2
      = .invoked 7 := by
  refine ⟨?_, ?_, ?_⟩
  · refine (fetch_dedup_and_ttl "sessions" 5000 6000 7 _ _).1 3 rfl ?_
    intro v hv
    cases hv
  · exact (fetch_dedup_and_ttl "sessions" 5000 6000 7 _ _).2.2.2.1 6000 (.error "boom")
  · exact (fetch_dedup_and_ttl "sessions" 5000 6000 7 _ _).2.2.2.2 ⟨42, 500⟩
      rfl (by norm_num) rfl

/-- Claim C10: serving from the TTL cache leaves the stored error
message unchanged, as does joining an in-flight request that succeeds;
the error field is reset to null exactly on the path that invokes the
operation (any non-invoking path leaves it unchanged). -/
theorem fetch_error_frame (cacheKey : Option String) (cacheTTL now freshPid : Nat)
    (g : FetchGlobals) (h : HookState) :
    (∀ v, (refetchStart cacheKey cacheTTL now freshPid g h).2.2 = .servedFromCache v →
      (refetchStart cacheKey cacheTTL now freshPid g h).2.1.error = h.error)
    ∧ (∀ v, (awaitInFlightSettle (.ok v) h).error = h.error)
    ∧ (∀ pid, (refetchStart cacheKey cacheTTL now freshPid g h).2.2 = .awaitedInFlight pid →
      (refetchStart cacheKey cacheTTL now freshPid g h).2.1.error = h.error)
    ∧ (∀ pid, (refetchStart cacheKey cacheTTL now freshPid g h).2.2 = .invoked pid →
      (refetchStart cacheKey cacheTTL now freshPid g h).2.1.error = none) := by
  refine ⟨?_, fun v => rfl, ?_, ?_⟩ <;>
  · intro x hx
    rcases hc : cacheHit cacheKey cacheTTL now g with _ | v
    · rcases hf : inflightFor cacheKey g with _ | p <;>
        simp only [refetchStart, hc, hf] at hx ⊢
      all_goals first | rfl | cases hx
    · simp only [refetchStart, hc] at hx ⊢
      all_goals first | rfl | cases hx

/-- Witness for C10 at concrete states: a cache hit and an in-flight
join both keep a previously stored error message; an invocation resets
it. -/
theorem fetch_error_frame_witness :
    (refetchStart (some "banks") 5000 1000 7
        { inFlightRequests := fun _ => none,
          resultCache := fun k => if k = "banks" then some ⟨9, 800⟩ else none }
        { data := none, loading := false, error := some "old failure" }).2.1.error
      = some "old failure"
    ∧ (awaitInFlightSettle (.ok 9)
        { data := none, loading := true, error := some "old failure" }).error
      = some "old failure"
    ∧ (refetchStart (some "banks") 0 1000 7
        { inFlightRequests := fun _ => none, resultCache := fun _ => none }
        { data := none, loading := false, error := some "old failure" }).2.1.error
      = none := by
  refine ⟨?_, ?_, ?_⟩
  · exact (fetch_error_frame (some "banks") 5000 1000 7 _ _).1 9 rfl
  · exact (fetch_error_frame (some "banks") 5000 1000 7
      { inFlightRequests := fun _ => none, resultCache := fun _ => none } _).2.1 9
  · exact (fetch_error_frame (some "banks") 0 1000 7 _ _).2.2.2 7 rfl

end QuizParty
